import Mathlib

/- Shallow embedding of src/Launcher/native/launcher.c (the Workspace launcher).
   C strings are modelled as `List Char` (the bytes of a NUL-terminated buffer,
   without the NUL); 32-bit machine integers are modelled as `Nat` with an
   explicit `% 2 ^ 32` at every point where overflow can occur.  External
   effects (file reads, network reads, process creation, dialogs) are modelled
   as explicit inputs threaded through an environment record, and the
   user-visible actions of `WinMain` are collected in an event trace. -/

/-- Structure mirroring `ReleaseInfo` from launcher.c:
`char version[32]; char download_url[512]; char filename[128]`. -/
structure ReleaseInfo where
  version : List Char
  download_url : List Char
  filename : List Char
  deriving DecidableEq

/-- Model of C `strstr`: the suffix of `s` starting at the first occurrence of
`pat`, or `none` when `pat` does not occur.  A returned pointer into a C buffer
is represented by the suffix it points at. -/
def strstrSuff (pat : List Char) : List Char → Option (List Char)
  | [] => if pat.isPrefixOf [] then some [] else none
  | c :: t => if pat.isPrefixOf (c :: t) then some (c :: t) else strstrSuff pat t

/-- The search key `"tag_name"` (quotes included) used by `CheckForUpdates`. -/
def tagKey : List Char := ("\"tag_name\"").data

/-- The search key `"browser_download_url"` (quotes included) used by
`CheckForUpdates`. -/
def bduKey : List Char := ("\"browser_download_url\"").data

/-- The substring `".exe"` that `CheckForUpdates` looks for with `strstr`. -/
def exePat : List Char := (".exe").data

/-- Removal of one leading letter v, as done by the `memmove` calls in
`ReadVersionFile` and `CheckForUpdates` after the `version[0] == 'v'` test. -/
def stripV : List Char → List Char
  | 'v' :: rest => rest
  | s => s

/-- The `tag_name` parsing block of `CheckForUpdates` (launcher.c lines
102-124).  `cur` is the current contents of `release->version`; it is left
unchanged when any `strstr`/`strchr` step fails or when the quoted value does
not fit in the 32-byte field. -/
def parseTagVersion (buf cur : List Char) : List Char :=
  match strstrSuff tagKey buf with
  | none => cur
  | some t =>
    match strstrSuff ([':']) t with
    | none => cur
    | some s1 =>
      match strstrSuff (['\"']) s1 with
      | none => cur
      | some s2 =>
        match strstrSuff (['\"']) s2.tail with
        | none => cur
        | some e =>
          if s2.tail.length - e.length < 32 then
            stripV (s2.tail.take (s2.tail.length - e.length))
          else cur

/-- One iteration body of the asset loop of `CheckForUpdates` (launcher.c lines
129-156), applied to the suffix `occ` starting at one occurrence of the
`browser_download_url` key.  Note that, as in the C code, the `.exe` test is
`strstr(url_start, ".exe")`, which searches from the start of the quoted value
to the end of the whole buffer, not only inside the value. -/
def processOcc (occ : List Char) : Option (List Char) :=
  match strstrSuff ([':']) occ with
  | none => none
  | some s1 =>
    match strstrSuff (['\"']) s1 with
    | none => none
    | some s2 =>
      match strstrSuff (['\"']) s2.tail with
      | none => none
      | some ue =>
        match strstrSuff exePat s2.tail with
        | none => none
        | some _ =>
          if s2.tail.length - ue.length < 512 then
            some (s2.tail.take (s2.tail.length - ue.length))
          else none

/-- The asset loop of `CheckForUpdates` (launcher.c lines 127-158), iterating
over occurrences of the `browser_download_url` key and stopping at the first
one accepted by `processOcc`.  The fuel argument only bounds the recursion;
each step moves to a strictly shorter suffix, so `s.length + 1` fuel is always
enough. -/
def findExeAssetFuel : Nat → List Char → Option (List Char)
  | 0, _ => none
  | fuel + 1, s =>
    match strstrSuff bduKey s with
    | none => none
    | some occ =>
      match processOcc occ with
      | some url => some url
      | none => findExeAssetFuel fuel occ.tail

/-- The asset-selection scan of `CheckForUpdates`, with enough fuel. -/
def findExeAsset (buf : List Char) : Option (List Char) :=
  findExeAssetFuel (buf.length + 1) buf

/-- Model of `strrchr(url, '/') + 1`: the part of `s` after its last slash. -/
def afterLastSlash : List Char → Option (List Char)
  | [] => none
  | c :: rest =>
    match afterLastSlash rest with
    | some r => some r
    | none => if c = '/' then some rest else none

/-- The parsing part of `CheckForUpdates` (launcher.c lines 98-159) applied to
a successfully read response buffer `buf`, starting from the caller's
`ReleaseInfo` contents `init` (zero-initialized in `WinMain`).  The flag is the
C local `result`: true exactly when the asset loop accepted a URL. -/
def CheckForUpdatesStruct (buf : List Char) (init : ReleaseInfo) : Bool × ReleaseInfo :=
  let ver := parseTagVersion buf init.version
  match findExeAsset buf with
  | none => (false, { init with version := ver })
  | some url =>
    let fn := match afterLastSlash url with
              | some rest => rest
              | none => init.filename
    (true, { version := ver, download_url := url, filename := fn })

/-- Full `CheckForUpdates` on a successfully read buffer: the return value is
`result && strcmp(release->version, current_version) != 0` (line 165), and the
`release` out-parameter is updated as in the C code. -/
def CheckForUpdates (current buf : List Char) (init : ReleaseInfo) : Bool × ReleaseInfo :=
  let fr := CheckForUpdatesStruct buf init
  (fr.1 && decide (fr.2.version ≠ current), fr.2)

/-- `CheckForUpdates` including the network steps: `resp = none` models any
failure of `InternetOpenA`/`InternetOpenUrlA`/`InternetReadFile` (or an empty
read), in which case `result` stays FALSE and `release` is untouched. -/
def CheckForUpdatesNet (current : List Char) (resp : Option (List Char))
    (init : ReleaseInfo) : Bool × ReleaseInfo :=
  match resp with
  | none => (false, init)
  | some buf => CheckForUpdates current buf init

/-- The update decision of launcher.c line 165, packaged with the spec's
signature: an `Option ReleaseInfo` is present exactly when the C `result` flag
is TRUE, and the decision is byte-inequality of the version strings. -/
def shouldUpdate (current : List Char) (remote : Option ReleaseInfo) : Bool :=
  match remote with
  | none => false
  | some r => decide (r.version ≠ current)

/-- The `Option ReleaseInfo` view of the extraction result: present exactly
when the C `result` flag is TRUE. -/
def releaseOption (buf : List Char) (init : ReleaseInfo) : Option ReleaseInfo :=
  if (CheckForUpdatesStruct buf init).1 then some (CheckForUpdatesStruct buf init).2 else none

/-- Model of `fgets(version, n+1, file)` on file contents `c` (n = size - 1
characters at most, stopping after the first newline). -/
def fgetsLine : List Char → Nat → List Char
  | _, 0 => []
  | [], _ + 1 => []
  | ch :: rest, k + 1 => if ch = '\n' then [ch] else ch :: fgetsLine rest k

/-- Line-ending test used by the stripping loop of `ReadVersionFile`. -/
def isNL (ch : Char) : Bool := ch = '\n' || ch = '\r'

/-- The trailing line-ending stripping loop of `ReadVersionFile` (launcher.c
lines 66-69): removes the maximal trailing run of `'\n'`/`'\r'` characters. -/
def stripCRLF : List Char → List Char
  | [] => []
  | ch :: rest =>
    match stripCRLF rest with
    | [] => if isNL ch then [] else [ch]
    | r1 :: r2 => ch :: r1 :: r2

/-- Model of `ReadVersionFile` (launcher.c lines 57-77).  `content` is the file
contents, `none` when `fopen` fails; `size` is the buffer size (32 at the call
site); `init` is the previous contents of the caller's buffer (uninitialized
stack memory in `WinMain`), which the C function leaves in place when `fgets`
reads nothing (empty file). -/
def ReadVersionFile (content : Option (List Char)) (size : Nat) (init : List Char) :
    Bool × List Char :=
  match content with
  | none => (false, ("0.0.0").data)
  | some c =>
    if c = [] then (true, init)
    else (true, stripV (stripCRLF (fgetsLine c (size - 1))))

/-- Download environment: outcomes of `InternetOpenA`, `InternetOpenUrlA` and
`fopen_s`, plus the sequence of `InternetReadFile` outcomes (`none` models a
failing read, `some n` a successful read of `n` bytes, `n ≤ 8192`). -/
structure DlEnv where
  netOpenOk : Bool
  urlOpenOk : Bool
  fileOpenOk : Bool
  chunks : List (Option Nat)
  deriving DecidableEq

/-- The read/write loop of `DownloadFile` (launcher.c lines 187-197), started
with `totalBytes = t`.  Returns the number of bytes written to the destination
file and the sequence of `totalBytes` values shown to the progress sink after
each chunk.  `totalBytes` is a DWORD, so it accumulates modulo `2 ^ 32`.  The
loop exits on a failing read (`none`) or a zero-byte read, exactly like
`while (InternetReadFile(...) && bytesRead > 0)`. -/
def dlLoop : Nat → List (Option Nat) → Nat × List Nat
  | _, [] => (0, [])
  | _, none :: _ => (0, [])
  | _, some 0 :: _ => (0, [])
  | t, some (n + 1) :: rest =>
    let t2 := (t + (n + 1)) % 2 ^ 32
    let r := dlLoop t2 rest
    ((n + 1) + r.1, t2 :: r.2)

/-- Model of `DownloadFile` (launcher.c lines 169-207).  Note that `result` is
set to TRUE whenever the three opens succeed, regardless of how the read loop
ends: a mid-transfer read failure is indistinguishable from end-of-data. -/
def DownloadFile (e : DlEnv) : Bool × Nat × List Nat :=
  if e.netOpenOk then
    if e.urlOpenOk then
      if e.fileOpenOk then
        ((true : Bool), dlLoop 0 e.chunks)
      else (false, 0, [])
    else (false, 0, [])
  else (false, 0, [])

/-- User-visible actions of `WinMain`, in the order they happen. -/
inductive Event where
  | errAppDir : Event
  | updateDialog : List Char → List Char → Event
  | installerLaunch : Bool → Event
  | errInstaller : Event
  | errDownload : Event
  | mainAppLaunch : Bool → Event
  | errMainApp : Event
  deriving DecidableEq

/-- Environment of one `WinMain` run: all external outcomes it can observe. -/
structure Env where
  appDirOk : Bool
  versionFile : Option (List Char)
  uninitVersion : List Char
  feedResponse : Option (List Char)
  userAccepts : Bool
  dlNetOpenOk : Bool
  dlUrlOpenOk : Bool
  dlFileOpenOk : Bool
  dlChunks : List (Option Nat)
  installerOk : Bool
  mainAppOk : Bool
  deriving DecidableEq

/-- The local version read by `WinMain` (launcher.c lines 287-288):
`ReadVersionFile(version_path, current_version, sizeof(current_version))` with
a 32-byte uninitialized buffer, return value ignored. -/
def currentVersionOf (e : Env) : List Char :=
  (ReadVersionFile e.versionFile 32 e.uninitVersion).2

/-- The `CheckForUpdates` call of `WinMain` (line 291), with `release = {0}`. -/
def checkOf (e : Env) : Bool × ReleaseInfo :=
  CheckForUpdatesNet (currentVersionOf e) e.feedResponse ⟨[], [], []⟩

/-- The `DownloadFile` call of `WinMain` (line 310). -/
def dlOf (e : Env) : Bool × Nat × List Nat :=
  DownloadFile ⟨e.dlNetOpenOk, e.dlUrlOpenOk, e.dlFileOpenOk, e.dlChunks⟩

/-- Model of `WinMain` (launcher.c lines 273-336): exit code and event trace.
Mirrors the C control flow exactly; in particular, after a failed
`LaunchInstaller` the code shows an error and falls through to the main-app
launch at line 327 (there is no early return on that branch). -/
def WinMain (e : Env) : Nat × List Event :=
  if e.appDirOk then
    let up : List Event × Option Nat :=
      if (checkOf e).1 then
        let d : List Event := [Event.updateDialog (currentVersionOf e) (checkOf e).2.version]
        if e.userAccepts then
          if (dlOf e).1 then
            if e.installerOk then (d ++ [Event.installerLaunch true], some 0)
            else (d ++ [Event.installerLaunch false, Event.errInstaller], none)
          else (d ++ [Event.errDownload], none)
        else (d, none)
      else ([], none)
    match up.2 with
    | some code => (code, up.1)
    | none =>
      if e.mainAppOk then (0, up.1 ++ [Event.mainAppLaunch true])
      else (1, up.1 ++ [Event.mainAppLaunch false, Event.errMainApp])
  else (1, [Event.errAppDir])

/-- A well-formed feed document with tag v2.3.0 and one exe asset (claim C7). -/
def feedC7 : List Char :=
  ("\"tag_name\": \"v2.3.0\", \"browser_download_url\": \"https://x/y/app-2.3.0.exe\"").data

/-- A well-formed feed document with tag v9.9.9 and one exe asset. -/
def feedC1 : List Char :=
  ("\"tag_name\": \"v9.9.9\", \"browser_download_url\": \"https://x/y/app-9.9.9.exe\"").data

/-- A feed document with no `tag_name` key but an exe asset (claim C3). -/
def feedC3 : List Char :=
  ("\"browser_download_url\": \"https://x/setup.exe\"").data

/-- A feed document whose first asset value lacks `.exe` while a later asset
value contains it (claim C6). -/
def feedC6 : List Char :=
  ("\"tag_name\": \"v1.0\", \"browser_download_url\": \"https://x/a.zip\", \"browser_download_url\": \"https://x/b.exe\"").data

/-- Run of `WinMain` with accepted update, successful download and failing
installer launch. -/
def envC1 : Env :=
  ⟨true, none, [], some feedC1, true, true, true, true, [some 10], false, true⟩

/-- Run of `WinMain` with accepted update, successful download and successful
installer launch. -/
def envC1w : Env :=
  ⟨true, none, [], some feedC1, true, true, true, true, [some 10], true, true⟩

/-- Run of `WinMain` with accepted update and a mid-transfer read failure after
one successful 5-byte chunk. -/
def envC2 : Env :=
  ⟨true, none, [], some feedC1, true, true, true, true, [some 5, none], true, true⟩

/-- Run of `WinMain` with accepted update and a failing destination-file open
in the download. -/
def envC2w : Env :=
  ⟨true, none, [], some feedC1, true, true, true, false, [], true, true⟩

/-- A download source of 2 ^ 19 chunks of 8192 bytes each: 4 GiB in total. -/
def bigChunks : List Nat := List.replicate (2 ^ 19) 8192

/-- The take of a list is one of its `isPrefixOf` witnesses. -/
theorem take_isPrefixOf (l : List Char) (n : Nat) : (l.take n).isPrefixOf l = true := by
  induction l generalizing n with
  | nil => cases n <;> simp [List.isPrefixOf]
  | cons a t ih =>
    cases n with
    | zero => simp [List.isPrefixOf]
    | succ k =>
      simp only [List.take_succ_cons, List.isPrefixOf, beq_self_eq_true, Bool.true_and]
      exact ih k

/-- A pointer returned by `strstrSuff` is a suffix of the searched buffer. -/
theorem strstrSuff_isSuffix {pat s t : List Char} (h : strstrSuff pat s = some t) :
    t.IsSuffix s := by
  induction s with
  | nil =>
    unfold strstrSuff at h
    split at h
    · cases h; exact List.suffix_refl []
    · cases h
  | cons c rest ih =>
    unfold strstrSuff at h
    split at h
    · cases h; exact List.suffix_refl _
    · exact (ih h).trans (List.suffix_cons c rest)

/-- The pattern is a prefix of the suffix returned by `strstrSuff`. -/
theorem strstrSuff_isPrefixOf {pat s t : List Char} (h : strstrSuff pat s = some t) :
    pat.isPrefixOf t = true := by
  induction s with
  | nil =>
    unfold strstrSuff at h
    split at h
    · cases h; assumption
    · cases h
  | cons c rest ih =>
    unfold strstrSuff at h
    split at h
    · cases h; assumption
    · exact ih h

/-- A nonempty pattern is only found at a nonempty suffix. -/
theorem strstrSuff_ne_nil {pat s t : List Char} (hpat : pat ≠ [])
    (h : strstrSuff pat s = some t) : t ≠ [] := by
  intro ht
  subst ht
  have hp := strstrSuff_isPrefixOf h
  cases pat with
  | nil => exact hpat rfl
  | cons a q => simp [List.isPrefixOf] at hp

/-- When `strstrSuff` fails, the pattern prefixes no suffix of the buffer. -/
theorem strstrSuff_none_not {pat s : List Char} (h : strstrSuff pat s = none) :
    ∀ t : List Char, t.IsSuffix s → pat.isPrefixOf t = false := by
  induction s with
  | nil =>
    intro t hts
    rw [List.suffix_nil] at hts
    subst hts
    unfold strstrSuff at h
    by_cases hp : pat.isPrefixOf [] = true
    · rw [if_pos hp] at h; cases h
    · exact Bool.eq_false_iff.mpr hp
  | cons c rest ih =>
    intro t hts
    unfold strstrSuff at h
    by_cases hp : pat.isPrefixOf (c :: rest) = true
    · rw [if_pos hp] at h; cases h
    · rw [if_neg hp] at h
      rcases List.suffix_cons_iff.mp hts with heq | hsub
      · subst heq; exact Bool.eq_false_iff.mpr hp
      · exact ih h t hsub

/-- When `strstrSuff` fails on a buffer it also fails on every suffix. -/
theorem strstrSuff_none_suffix {pat s t : List Char} (h : strstrSuff pat s = none)
    (hts : t.IsSuffix s) : strstrSuff pat t = none := by
  cases heq : strstrSuff pat t with
  | none => rfl
  | some u =>
    have h1 := strstrSuff_isSuffix heq
    have h2 := strstrSuff_isPrefixOf heq
    rw [strstrSuff_none_not h u (h1.trans hts)] at h2
    cases h2

/-- An accepted iteration of the asset loop yields a URL shorter than 512 bytes
that is a prefix of a suffix of the iteration buffer in which `.exe` occurs. -/
theorem processOcc_some {occ url : List Char} (h : processOcc occ = some url) :
    ∃ u : List Char, u.IsSuffix occ ∧ url.isPrefixOf u = true ∧
      (strstrSuff exePat u).isSome = true ∧ url.length < 512 := by
  unfold processOcc at h
  split at h
  next => cases h
  next s1 h1 =>
    split at h
    next => cases h
    next s2 h2 =>
      split at h
      next => cases h
      next ue h3 =>
        split at h
        next => cases h
        next w h4 =>
          split at h
          next hlen =>
            injection h with hurl
            refine ⟨s2.tail, ?_, ?_, ?_, ?_⟩
            · have a1 := strstrSuff_isSuffix h1
              have a2 := strstrSuff_isSuffix h2
              exact (List.tail_suffix s2).trans (a2.trans a1)
            · rw [← hurl]; exact take_isPrefixOf _ _
            · rw [h4]; rfl
            · rw [← hurl]
              calc (s2.tail.take (s2.tail.length - ue.length)).length
                  ≤ s2.tail.length - ue.length := by
                    rw [List.length_take]; exact Nat.min_le_left _ _
                _ < 512 := hlen
          next hlen => cases h

/-- When `.exe` occurs nowhere in the buffer, the asset loop accepts nothing. -/
theorem findExeAssetFuel_none {fuel : Nat} {s : List Char}
    (h : strstrSuff exePat s = none) : findExeAssetFuel fuel s = none := by
  induction fuel generalizing s with
  | zero => rfl
  | succ k ih =>
    unfold findExeAssetFuel
    split
    next => rfl
    next occ hocc =>
      have hsuff := strstrSuff_isSuffix hocc
      split
      next url hp =>
        exfalso
        obtain ⟨u, hu1, _, hu3, _⟩ := processOcc_some hp
        rw [strstrSuff_none_suffix h (hu1.trans hsuff)] at hu3
        cases hu3
      next hp =>
        exact ih (strstrSuff_none_suffix h ((List.tail_suffix occ).trans hsuff))

/-- Any URL accepted by the asset loop is shorter than 512 bytes and is a
prefix of a suffix of the buffer in which `.exe` occurs somewhere (possibly
past the end of the quoted value). -/
theorem findExeAssetFuel_some {fuel : Nat} {s url : List Char}
    (h : findExeAssetFuel fuel s = some url) :
    url.length < 512 ∧ ∃ u : List Char, u.IsSuffix s ∧ url.isPrefixOf u = true ∧
      (strstrSuff exePat u).isSome = true := by
  induction fuel generalizing s with
  | zero => cases h
  | succ k ih =>
    unfold findExeAssetFuel at h
    split at h
    next => cases h
    next occ hocc =>
      have hsuff := strstrSuff_isSuffix hocc
      split at h
      next u0 hp =>
        injection h with h0
        subst h0
        obtain ⟨u, hu1, hu2, hu3, hu4⟩ := processOcc_some hp
        exact ⟨hu4, u, hu1.trans hsuff, hu2, hu3⟩
      next hp =>
        obtain ⟨hl, u, hu1, hu2, hu3⟩ := ih h
        exact ⟨hl, u, hu1.trans ((List.tail_suffix occ).trans hsuff), hu2, hu3⟩

/-- The trailing strip only looks at the tail: consing the same character onto
lists with equal strips yields equal strips. -/
theorem stripCRLF_cons (ch : Char) {A B : List Char} (h : stripCRLF A = stripCRLF B) :
    stripCRLF (ch :: A) = stripCRLF (ch :: B) := by
  simp only [stripCRLF]
  rw [h]

/-- After trailing-newline stripping, the bounded `fgets` line equals the
newline-free first line truncated to the same bound. -/
theorem stripCRLF_fgets (c : List Char) (n : Nat) :
    stripCRLF (fgetsLine c n)
      = stripCRLF ((c.takeWhile (fun ch => ch != '\n')).take n) := by
  induction c generalizing n with
  | nil => cases n <;> simp [fgetsLine, List.takeWhile]
  | cons ch rest ih =>
    cases n with
    | zero => simp [fgetsLine]
    | succ k =>
      by_cases hch : ch = '\n'
      · subst hch
        simp [fgetsLine, List.takeWhile_cons, stripCRLF, isNL]
      · simp only [fgetsLine, if_neg hch, List.takeWhile_cons]
        have hb : (ch != '\n') = true := by simpa using hch
        rw [hb]
        simp only [if_pos rfl, List.take_succ_cons]
        exact stripCRLF_cons ch (ih k)

/-- When the first `n` characters contain no newline and the buffer is long
enough, the bounded `fgets` reads exactly the first `n` characters. -/
theorem fgetsLine_eq_take {c : List Char} {n : Nat}
    (hnl : ∀ ch ∈ c.take n, ch ≠ '\n') (hlen : n ≤ c.length) :
    fgetsLine c n = c.take n := by
  induction c generalizing n with
  | nil =>
    have : n = 0 := by simpa using hlen
    subst this
    rfl
  | cons ch rest ih =>
    cases n with
    | zero => rfl
    | succ k =>
      have hch : ch ≠ '\n' := hnl ch (by simp)
      simp only [fgetsLine, if_neg hch, List.take_succ_cons]
      have : fgetsLine rest k = rest.take k := by
        refine ih ?_ ?_
        · intro x hx
          exact hnl x (by simp [hx])
        · simpa using hlen
      rw [this]

/-- On a nonempty file, `ReadVersionFile` succeeds and returns the first line
(bounded to `size - 1` characters), with trailing line endings and one leading
v stripped. -/
theorem readVersion_line (c init : List Char) (hc : c ≠ []) :
    ReadVersionFile (some c) 32 init
      = (true, stripV (stripCRLF ((c.takeWhile (fun ch => ch != '\n')).take 31))) := by
  simp only [ReadVersionFile, if_neg hc]
  rw [show (32 : Nat) - 1 = 31 from rfl, stripCRLF_fgets]

/-- When the first line is longer than 31 bytes, the result of
`ReadVersionFile` with a 32-byte buffer depends only on the first 31 bytes. -/
theorem readVersion_long (c init : List Char)
    (hnl : ∀ ch ∈ c.take 31, ch ≠ '\n') (hlen : 31 < c.length) :
    (ReadVersionFile (some c) 32 init).2 = stripV (stripCRLF (c.take 31)) := by
  have hc : c ≠ [] := by
    intro h
    subst h
    simp at hlen
  simp only [ReadVersionFile, if_neg hc]
  rw [show (32 : Nat) - 1 = 31 from rfl, fgetsLine_eq_take hnl (by omega)]

/-- The number of bytes written by the download loop on an error-free chunk
sequence is the sum of the chunk sizes. -/
theorem dlLoop_sum {cs : List Nat} (h : ∀ c ∈ cs, 0 < c) (t : Nat) :
    (dlLoop t (cs.map some)).1 = cs.sum := by
  induction cs generalizing t with
  | nil => simp [dlLoop]
  | cons c rest ih =>
    have hc : 0 < c := h c (by simp)
    obtain ⟨m, rfl⟩ : ∃ m, c = m + 1 := ⟨c - 1, by omega⟩
    simp only [List.map_cons, dlLoop, List.sum_cons]
    rw [ih (fun x hx => h x (by simp [hx]))]

/-- The download loop reports progress once per nonzero chunk. -/
theorem dlLoop_len {cs : List Nat} (h : ∀ c ∈ cs, 0 < c) (t : Nat) :
    (dlLoop t (cs.map some)).2.length = cs.length := by
  induction cs generalizing t with
  | nil => simp [dlLoop]
  | cons c rest ih =>
    have hc : 0 < c := h c (by simp)
    obtain ⟨m, rfl⟩ : ∃ m, c = m + 1 := ⟨c - 1, by omega⟩
    simp only [List.map_cons, dlLoop, List.length_cons]
    rw [ih (fun x hx => h x (by simp [hx]))]

/-- The k-th progress report of the download loop started at `t` is the 32-bit
truncation of `t` plus the bytes delivered by the first `k + 1` chunks. -/
theorem dlLoop_get {cs : List Nat} (h : ∀ c ∈ cs, 0 < c) (t k : Nat)
    (hk : k < (dlLoop t (cs.map some)).2.length) :
    (dlLoop t (cs.map some)).2.get ⟨k, hk⟩ = (t + (cs.take (k + 1)).sum) % 2 ^ 32 := by
  induction cs generalizing t k with
  | nil => simp [dlLoop] at hk
  | cons c rest ih =>
    have hc : 0 < c := h c (by simp)
    obtain ⟨m, rfl⟩ : ∃ m, c = m + 1 := ⟨c - 1, by omega⟩
    cases k with
    | zero => simp [dlLoop, List.take_succ_cons, List.sum_cons]
    | succ k2 =>
      have hrest : ∀ x ∈ rest, 0 < x := fun x hx => h x (by simp [hx])
      have hk2 : k2 < (dlLoop ((t + (m + 1)) % 2 ^ 32) (rest.map some)).2.length := by
        have := hk
        simp only [List.map_cons, dlLoop, List.length_cons] at this
        omega
      have hrec := ih hrest ((t + (m + 1)) % 2 ^ 32) k2 hk2
      simp only [List.map_cons, dlLoop, List.get_cons_succ]
      rw [hrec, Nat.mod_add_mod, List.take_succ_cons, List.sum_cons]
      congr 1
      omega

/-- The result flag of `DownloadFile` depends only on the three opens: the read
loop cannot change it (launcher.c sets `result = TRUE` after the loop no matter
how the loop ended). -/
theorem downloadFile_result (a b c : Bool) (chunks : List (Option Nat)) :
    (DownloadFile ⟨a, b, c, chunks⟩).1 = (a && b && c) := by
  cases a <;> cases b <;> cases c <;> simp [DownloadFile]

/-- A chain from a start value gives a chain of the list itself. -/
theorem chain'_of_chain {l : List Nat} {t : Nat}
    (h : List.Chain (fun a b => a ≤ b) t l) : List.Chain' (fun a b => a ≤ b) l := by
  cases h with
  | nil => trivial
  | cons hrel htail => exact htail

/-- As long as the true total stays below `2 ^ 32`, the download loop's
progress reports grow from the start value. -/
theorem dlLoop_chain {cs : List Nat} (h : ∀ c ∈ cs, 0 < c) (t : Nat)
    (hlt : t + cs.sum < 2 ^ 32) :
    List.Chain (fun a b => a ≤ b) t (dlLoop t (cs.map some)).2 := by
  induction cs generalizing t with
  | nil => exact List.Chain.nil
  | cons c rest ih =>
    have hc : 0 < c := h c (by simp)
    obtain ⟨m, rfl⟩ : ∃ m, c = m + 1 := ⟨c - 1, by omega⟩
    have hsum : t + (m + 1) + rest.sum < 2 ^ 32 := by
      simp only [List.sum_cons] at hlt
      omega
    have ht2 : (t + (m + 1)) % 2 ^ 32 = t + (m + 1) := Nat.mod_eq_of_lt (by omega)
    simp only [List.map_cons, dlLoop]
    rw [ht2]
    exact List.Chain.cons (Nat.le_add_right t (m + 1))
      (ih (fun x hx => h x (by simp [hx])) (t + (m + 1)) (by omega))

/-- When the `tag_name` key is absent, the version parsing block leaves the
`version` field untouched. -/
theorem parseTag_none {buf : List Char} (cur : List Char)
    (h : strstrSuff tagKey buf = none) : parseTagVersion buf cur = cur := by
  unfold parseTagVersion
  rw [h]

/-- Sum of a constant list. -/
theorem sum_replicate_nat (n c : Nat) : (List.replicate n c).sum = n * c := by
  induction n with
  | zero => simp
  | succ k ih =>
    rw [List.replicate_succ, List.sum_cons, ih]
    ring

/-- Claim C1, corrected.  In a run that reaches the installer-launch step
(update accepted, download reported successful): when `LaunchInstaller`
succeeds the launcher exits 0 without attempting a main-app launch, but when
`LaunchInstaller` fails it shows an error and falls through to the main-app
launch branch, like the other failure branches — `WinMain` has no early return
on that path. -/
theorem c1_installer_branch (e : Env) (hdir : e.appDirOk = true)
    (hupd : (checkOf e).1 = true) (hacc : e.userAccepts = true)
    (hdl : (dlOf e).1 = true) :
    (e.installerOk = true →
      (WinMain e).1 = 0 ∧ Event.installerLaunch true ∈ (WinMain e).2 ∧
        Event.mainAppLaunch true ∉ (WinMain e).2 ∧
        Event.mainAppLaunch false ∉ (WinMain e).2) ∧
    (e.installerOk = false →
      Event.errInstaller ∈ (WinMain e).2 ∧
        Event.mainAppLaunch e.mainAppOk ∈ (WinMain e).2) := by
  constructor
  · intro hi
    simp [WinMain, hdir, hupd, hacc, hdl, hi]
  · intro hi
    cases hm : e.mainAppOk <;> simp [WinMain, hdir, hupd, hacc, hdl, hi, hm]

/-- Witness for C1: a concrete run with a successful installer launch. -/
theorem c1_installer_branch_witness :
    (WinMain envC1w).1 = 0 ∧ Event.installerLaunch true ∈ (WinMain envC1w).2 ∧
      Event.mainAppLaunch true ∉ (WinMain envC1w).2 ∧
      Event.mainAppLaunch false ∉ (WinMain envC1w).2 :=
  (c1_installer_branch envC1w rfl (by decide) rfl (by decide)).1 rfl

/-- Counterexample to claim C1 as stated: a run that reaches the installer
launch and whose installer launch fails does attempt a main-app launch. -/
theorem c1_counterexample :
    Event.installerLaunch false ∈ (WinMain envC1).2 ∧
      Event.mainAppLaunch true ∈ (WinMain envC1).2 ∧ (WinMain envC1).1 = 0 := by
  decide

/-- Claim C2, corrected.  The download result flag depends only on the three
opens (`InternetOpenA`, `InternetOpenUrlA`, `fopen_s`): a network read failure
mid-transfer ends the read loop but is still reported as success (so the
orchestrator proceeds to the installer branch).  When the download does report
failure (an open failed), the orchestrator routes to the main-app launch
branch and never to the installer branch. -/
theorem c2_download_failure_routing (e : Env) (hdir : e.appDirOk = true)
    (hupd : (checkOf e).1 = true) (hacc : e.userAccepts = true) :
    ((dlOf e).1 = (e.dlNetOpenOk && e.dlUrlOpenOk && e.dlFileOpenOk)) ∧
    ((dlOf e).1 = false →
      Event.errDownload ∈ (WinMain e).2 ∧
        Event.installerLaunch true ∉ (WinMain e).2 ∧
        Event.installerLaunch false ∉ (WinMain e).2 ∧
        Event.mainAppLaunch e.mainAppOk ∈ (WinMain e).2) := by
  constructor
  · exact downloadFile_result e.dlNetOpenOk e.dlUrlOpenOk e.dlFileOpenOk e.dlChunks
  · intro hdl
    cases hm : e.mainAppOk <;> simp [WinMain, hdir, hupd, hacc, hdl, hm]

/-- Witness for C2: a concrete run whose destination-file open fails. -/
theorem c2_download_failure_routing_witness :
    Event.errDownload ∈ (WinMain envC2w).2 ∧
      Event.installerLaunch true ∉ (WinMain envC2w).2 ∧
      Event.installerLaunch false ∉ (WinMain envC2w).2 ∧
      Event.mainAppLaunch true ∈ (WinMain envC2w).2 :=
  (c2_download_failure_routing envC2w rfl (by decide) rfl).2 (by decide)

/-- Counterexample to claim C2 as stated: with a mid-transfer read failure
(one good 5-byte chunk, then a failing read) the download reports success and
the orchestrator routes to the installer branch, not to the main app. -/
theorem c2_counterexample :
    (DownloadFile ⟨true, true, true, [some 5, none]⟩).1 = true ∧
      Event.installerLaunch true ∈ (WinMain envC2).2 ∧
      Event.mainAppLaunch true ∉ (WinMain envC2).2 ∧
      Event.mainAppLaunch false ∉ (WinMain envC2).2 := by
  decide

/-- Claim C3, corrected.  Presence of the extraction result is decided solely
by the asset scan: when the `tag_name` key is missing the `version` field is
left at its caller-initialized value (the empty string in `WinMain`) and the
result flag still equals presence of an accepted asset URL. -/
theorem c3_missing_tag (buf : List Char) (init : ReleaseInfo)
    (h : strstrSuff tagKey buf = none) :
    (CheckForUpdatesStruct buf init).2.version = init.version ∧
      ((CheckForUpdatesStruct buf init).1 = (findExeAsset buf).isSome) := by
  unfold CheckForUpdatesStruct
  rw [parseTag_none init.version h]
  cases hf : findExeAsset buf <;> simp

/-- Witness for C3: the tag-free feed with an exe asset. -/
theorem c3_missing_tag_witness :
    (CheckForUpdatesStruct feedC3 ⟨[], [], []⟩).2.version = [] ∧
      ((CheckForUpdatesStruct feedC3 ⟨[], [], []⟩).1 = (findExeAsset feedC3).isSome) :=
  c3_missing_tag feedC3 ⟨[], [], []⟩ (by decide)

/-- Counterexample to claim C3 as stated: a feed without any `tag_name` key but
with an `.exe` asset yields a present result with an empty version, and the
update decision against local version 1.0.0 is still positive. -/
theorem c3_counterexample :
    strstrSuff tagKey feedC3 = none ∧
      (CheckForUpdatesStruct feedC3 ⟨[], [], []⟩).1 = true ∧
      (CheckForUpdatesStruct feedC3 ⟨[], [], []⟩).2.version = [] ∧
      (CheckForUpdates (("1.0.0").data) feedC3 ⟨[], [], []⟩).1 = true := by
  decide

/-- Claim C4, corrected.  On open failure `ReadVersionFile` produces 0.0.0 (and
returns FALSE); on a successful open of an empty file it returns TRUE but
leaves the caller's buffer contents in place (it does not produce 0.0.0); on a
successful open of a nonempty file it returns the first line, bounded to 31
bytes at this call site, with trailing line endings stripped and one leading v
stripped, with no further validation. -/
theorem c4_read_version (c init : List Char) (hc : c ≠ []) :
    ReadVersionFile none 32 init = (false, ("0.0.0").data) ∧
      ReadVersionFile (some []) 32 init = (true, init) ∧
      ReadVersionFile (some c) 32 init
        = (true, stripV (stripCRLF ((c.takeWhile (fun ch => ch != '\n')).take 31))) :=
  ⟨rfl, rfl, readVersion_line c init hc⟩

/-- Witness for C4 on concrete file states. -/
theorem c4_read_version_witness :
    ReadVersionFile none 32 (("Z").data) = (false, ("0.0.0").data) ∧
      ReadVersionFile (some []) 32 (("Z").data) = (true, ("Z").data) ∧
      ReadVersionFile (some (("v1.2.3\n").data)) 32 (("Z").data)
        = (true, stripV (stripCRLF ((((("v1.2.3\n").data)).takeWhile
            (fun ch => ch != '\n')).take 31))) :=
  c4_read_version (("v1.2.3\n").data) (("Z").data) (by decide)

/-- Counterexample to claim C4 as stated: on an empty (but openable) marker
file the function reports success and returns the caller's previous buffer
contents, not 0.0.0. -/
theorem c4_counterexample :
    (ReadVersionFile (some []) 32 (("Z").data)).1 = true ∧
      (ReadVersionFile (some []) 32 (("Z").data)).2 ≠ ("0.0.0").data := by
  decide

/-- Claim C5, confirmed.  The update decision of launcher.c line 165 is
exactly `shouldUpdate`: present release AND byte-inequality of versions; any
textual difference (including a downgrade) yields true, an exact byte match
yields false. -/
theorem c5_should_update (current buf : List Char) (init : ReleaseInfo)
    (remote : Option ReleaseInfo) :
    ((CheckForUpdates current buf init).1
        = shouldUpdate current (releaseOption buf init)) ∧
      (shouldUpdate current remote = true
        ↔ ∃ r : ReleaseInfo, remote = some r ∧ r.version ≠ current) := by
  constructor
  · unfold CheckForUpdates releaseOption shouldUpdate
    cases hb : (CheckForUpdatesStruct buf init).1 <;> simp [hb]
  · cases remote with
    | none => simp [shouldUpdate]
    | some r =>
      simp only [shouldUpdate, decide_eq_true_eq]
      constructor
      · intro hne
        exact ⟨r, rfl, hne⟩
      · rintro ⟨r2, hr2, hne⟩
        injection hr2 with hr3
        subst hr3
        exact hne

/-- Claim C6, corrected.  The asset chosen by the loop is the value of the
first `browser_download_url` occurrence such that `.exe` occurs anywhere in
the buffer at or after the start of the value (the `strstr` check runs to the
end of the buffer, not only inside the quoted value) and whose value is
shorter than 512 bytes; when `.exe` occurs nowhere in the buffer, no asset is
selected. -/
theorem c6_asset_scan (buf : List Char) :
    (strstrSuff exePat buf = none → findExeAsset buf = none) ∧
      (∀ url : List Char, findExeAsset buf = some url →
        url.length < 512 ∧ ∃ u : List Char, u.IsSuffix buf ∧
          url.isPrefixOf u = true ∧ (strstrSuff exePat u).isSome = true) := by
  constructor
  · intro h
    exact findExeAssetFuel_none h
  · intro url h
    exact findExeAssetFuel_some h

/-- Witness for C6 on concrete buffers. -/
theorem c6_asset_scan_witness :
    findExeAsset (("no installable asset here").data) = none ∧
      ((("https://x/a.zip").data).length < 512 ∧
        ∃ u : List Char, u.IsSuffix feedC6 ∧
          (("https://x/a.zip").data).isPrefixOf u = true ∧
          (strstrSuff exePat u).isSome = true) :=
  ⟨(c6_asset_scan (("no installable asset here").data)).1 (by decide),
   (c6_asset_scan feedC6).2 (("https://x/a.zip").data) (by decide)⟩

/-- Counterexample to claim C6 as stated: in `feedC6` the first asset value
lacks `.exe`, a later value contains it, and the loop nevertheless chooses the
first (zip) value, because its `.exe` check searches past the value's closing
quote to the end of the buffer. -/
theorem c6_counterexample :
    findExeAsset feedC6 = some (("https://x/a.zip").data) ∧
      strstrSuff exePat (("https://x/a.zip").data) = none ∧
      strstrSuff exePat (("https://x/b.exe").data) ≠ none := by
  decide

/-- Claim C7, confirmed.  On a feed with tag v2.3.0 and asset URL
https://x/y/app-2.3.0.exe the extraction yields version 2.3.0 (leading v
stripped), that URL, and filename app-2.3.0.exe (substring after the last
slash). -/
theorem c7_extraction :
    CheckForUpdatesStruct feedC7 ⟨[], [], []⟩
      = (true, ⟨("2.3.0").data, ("https://x/y/app-2.3.0.exe").data,
          ("app-2.3.0.exe").data⟩) := by
  decide

/-- Claim C8, corrected.  A successful download of positive chunks writes
exactly the sum of the chunk sizes to the destination file; the progress
reports are monotonically non-decreasing provided the total stays below
2 ^ 32 (the DWORD counter wraps on 4 GiB totals, see the counterexample). -/
theorem c8_download_totals (cs : List Nat) (h : ∀ c ∈ cs, 0 < c) :
    (DownloadFile ⟨true, true, true, cs.map some⟩).2.1 = cs.sum ∧
      (cs.sum < 2 ^ 32 →
        List.Chain' (fun a b => a ≤ b)
          (DownloadFile ⟨true, true, true, cs.map some⟩).2.2) := by
  constructor
  · show (dlLoop 0 (cs.map some)).1 = cs.sum
    exact dlLoop_sum h 0
  · intro hN
    show List.Chain' (fun a b => a ≤ b) (dlLoop 0 (cs.map some)).2
    exact chain'_of_chain (dlLoop_chain h 0 (by omega))

/-- Witness for C8 on a two-chunk download. -/
theorem c8_download_totals_witness :
    (DownloadFile ⟨true, true, true, ([4096, 8192].map some)⟩).2.1
        = ([4096, 8192] : List Nat).sum ∧
      (([4096, 8192] : List Nat).sum < 2 ^ 32 →
        List.Chain' (fun a b => a ≤ b)
          (DownloadFile ⟨true, true, true, ([4096, 8192].map some)⟩).2.2) :=
  c8_download_totals [4096, 8192] (by decide)

/-- Counterexample to claim C8 as stated: a successful download of 2 ^ 19
chunks of 8192 bytes (exactly 4 GiB) writes 2 ^ 32 bytes, yet its progress
reports are not monotonically non-decreasing — the DWORD counter wraps to 0 on
the last chunk. -/
theorem c8_counterexample :
    (DownloadFile ⟨true, true, true, bigChunks.map some⟩).1 = true ∧
      (DownloadFile ⟨true, true, true, bigChunks.map some⟩).2.1 = 2 ^ 32 ∧
      ¬ List.Chain' (fun a b => a ≤ b)
          (DownloadFile ⟨true, true, true, bigChunks.map some⟩).2.2 := by
  have hpos : ∀ c ∈ bigChunks, 0 < c := by
    intro c hc
    unfold bigChunks at hc
    rw [List.eq_of_mem_replicate hc]
    omega
  refine ⟨?_, ?_, ?_⟩
  · exact downloadFile_result true true true (bigChunks.map some)
  · show (dlLoop 0 (bigChunks.map some)).1 = 2 ^ 32
    rw [dlLoop_sum hpos 0]
    unfold bigChunks
    rw [sum_replicate_nat]
    norm_num
  · show ¬ List.Chain' (fun a b => a ≤ b) (dlLoop 0 (bigChunks.map some)).2
    intro hch
    rw [List.chain'_iff_get] at hch
    have hlen : (dlLoop 0 (bigChunks.map some)).2.length = 2 ^ 19 := by
      rw [dlLoop_len hpos 0]
      unfold bigChunks
      rw [List.length_replicate]
    have hb1 : 2 ^ 19 - 2 < (dlLoop 0 (bigChunks.map some)).2.length := by
      rw [hlen]; norm_num
    have hb2 : 2 ^ 19 - 2 + 1 < (dlLoop 0 (bigChunks.map some)).2.length := by
      rw [hlen]; norm_num
    have hbound : 2 ^ 19 - 2 < (dlLoop 0 (bigChunks.map some)).2.length - 1 := by
      rw [hlen]; norm_num
    have hrel := hch (2 ^ 19 - 2) hbound
    have hv1 := dlLoop_get hpos 0 (2 ^ 19 - 2) hb1
    have hv2 := dlLoop_get hpos 0 (2 ^ 19 - 2 + 1) hb2
    rw [hv1, hv2] at hrel
    unfold bigChunks at hrel
    rw [List.take_replicate] at hrel
    rw [List.take_replicate] at hrel
    rw [sum_replicate_nat] at hrel
    rw [sum_replicate_nat] at hrel
    norm_num at hrel

/-- Claim C9, confirmed.  With the launcher's 32-byte version buffer, a first
line longer than 31 bytes is truncated by the bounded `fgets` to its first 31
bytes before the newline and v-prefix stripping, so two marker files agreeing
on those 31 bytes are indistinguishable to the rest of the run. -/
theorem c9_version_truncation (c init c2 init2 : List Char)
    (h1 : ∀ ch ∈ c.take 31, ch ≠ '\n') (h2 : 31 < c.length)
    (h3 : ∀ ch ∈ c2.take 31, ch ≠ '\n') (h4 : 31 < c2.length)
    (h5 : c2.take 31 = c.take 31) :
    (ReadVersionFile (some c) 32 init).2 = stripV (stripCRLF (c.take 31)) ∧
      (ReadVersionFile (some c2) 32 init2).2 = (ReadVersionFile (some c) 32 init).2 := by
  refine ⟨readVersion_long c init h1 h2, ?_⟩
  rw [readVersion_long c init h1 h2, readVersion_long c2 init2 h3 h4, h5]

/-- Witness for C9: two 35-byte marker lines agreeing on their first 31 bytes
yield the same version. -/
theorem c9_version_truncation_witness :
    (ReadVersionFile (some (("v0123456789012345678901234567890AAA").data)) 32 []).2
        = stripV (stripCRLF ((("v0123456789012345678901234567890AAA").data).take 31)) ∧
      (ReadVersionFile (some (("v0123456789012345678901234567890BBB").data)) 32
          (("Q").data)).2
        = (ReadVersionFile (some (("v0123456789012345678901234567890AAA").data)) 32 []).2 :=
  c9_version_truncation (("v0123456789012345678901234567890AAA").data) []
    (("v0123456789012345678901234567890BBB").data) (("Q").data)
    (by decide) (by decide) (by decide) (by decide) (by decide)

/-- Claim C10, confirmed.  The cumulative byte count shown to the progress
sink after each chunk is the true number of bytes written so far reduced
modulo 2 ^ 32 (the counter is a DWORD), so counts wrap instead of growing
without bound. -/
theorem c10_progress_mod32 (cs : List Nat) (h : ∀ c ∈ cs, 0 < c ∧ c ≤ 8192)
    (k : Nat)
    (hk : k < (DownloadFile ⟨true, true, true, cs.map some⟩).2.2.length) :
    (DownloadFile ⟨true, true, true, cs.map some⟩).2.2.get ⟨k, hk⟩
      = (cs.take (k + 1)).sum % 2 ^ 32 := by
  have hpos : ∀ c ∈ cs, 0 < c := fun c hc => (h c hc).1
  have hk2 : k < (dlLoop 0 (cs.map some)).2.length := hk
  have hval := dlLoop_get hpos 0 k hk2
  rw [Nat.zero_add] at hval
  exact hval

/-- Witness for C10 on a two-chunk download. -/
theorem c10_progress_mod32_witness :
    (DownloadFile ⟨true, true, true, ([5, 3].map some)⟩).2.2.get ⟨1, by decide⟩
      = (([5, 3] : List Nat).take (1 + 1)).sum % 2 ^ 32 :=
  c10_progress_mod32 [5, 3] (by decide) 1 (by decide)
